import Mathlib

/-!
Verification of the AlienPoker auto-balancer (src/backend/config.py and
src/backend/auto_balancer.py) against its natural-language specification.

Python floats are modelled as rationals (ℚ); all constants appearing in the
source (0.03, 0.07, 0.8, 0.5, 3.0, 0.05, 1.0) are exact decimals, so the
control decisions studied here are arithmetic identities over ℚ.  In-place
mutation of the shared `Config` record is modelled by explicit state
passing: `adjust` returns the balancer with its updated config, and `run`
threads that state through the loop.  The Python `engine_class(config).
simulate()` collaborator is modelled as a function `engine : ℕ → Config → ρ`
(the iteration index stands for any per-iteration external randomness; a
deterministic engine ignores it), together with a projection `edgeOf : ρ → ℚ`
for the `result["house_edge"]` field access.  Reaching `return result` with
the local `result` unbound (the `max_iterations = 0` case, a Python
`UnboundLocalError`) is modelled by the `none` outcome of `run`.
-/

/-- Model of the `Config` dataclass in src/backend/config.py. -/
structure Config where
  players : Int
  ante : Int
  rounds : Int
  target_edge : ℚ
  bust_multiplier : ℚ
  tube_initial : List (String × ℚ)
deriving DecidableEq

/-- Default field values of the `Config` dataclass. -/
def Config.mkDefault : Config :=
  { players := 4
    ante := 5
    rounds := 20000
    target_edge := 5/100
    bust_multiplier := 1
    tube_initial := [("ST", 5), ("FL", 10), ("FH", 15), ("SF", 20), ("RF", 25)] }

/-- Model of the `AutoBalancer` instance state: the shared config reference
plus the numeric attributes set in `__init__`.  The `engine_class`
attribute is the external collaborator; it is passed explicitly to `run`
below instead of being stored, since the balancer never touches it
otherwise. -/
structure AutoBalancer where
  config : Config
  min_edge : ℚ
  max_edge : ℚ
  target : ℚ
  learning_rate : ℚ
deriving DecidableEq

/-- Model of `AutoBalancer.__init__`: constants 0.03, 0.07, 0.8 and the
snapshot `self.target = config.target_edge`. -/
def AutoBalancer.init (config : Config) : AutoBalancer :=
  { config := config
    min_edge := 3/100
    max_edge := 7/100
    target := config.target_edge
    learning_rate := 4/5 }

/-- Model of `AutoBalancer.adjust`: `gap = self.target - edge`, the
proportional update of `config.bust_multiplier`, then the two sequential
clamp tests exactly as written in the source (`if < 0.5` then `if > 3.0`). -/
def AutoBalancer.adjust (b : AutoBalancer) (edge : ℚ) : AutoBalancer :=
  let gap := b.target - edge
  let m0 := b.config.bust_multiplier + b.learning_rate * gap
  let m1 := if m0 < 1/2 then 1/2 else m0
  let m2 := if m1 > 3 then 3 else m1
  { b with config := { b.config with bust_multiplier := m2 } }

/-- A model of the record returned by `engine.simulate()`: the
`house_edge` field the balancer reads, plus an opaque payload standing for
every other field of the dict. -/
structure SimResult where
  house_edge : ℚ
  payload : Int
deriving DecidableEq

/-- Model of the `for i in range(max_iterations)` loop body of
`AutoBalancer.run`, with `i` the current iteration index, `remaining` the
iterations left, and `last` the current value of the local `result`
variable (`none` = still unbound).  The second component counts the
`engine.simulate()` calls performed.  Each iteration constructs a fresh
engine from the current config, reads the statistic, returns the record on
an inclusive band test, and otherwise adjusts and continues. -/
def runFrom {ρ : Type} (edgeOf : ρ → ℚ) (engine : Nat → Config → ρ)
    (b : AutoBalancer) (i : Nat) (remaining : Nat) (last : Option ρ) :
    Option ρ × Nat :=
  match remaining with
  | 0 => (last, 0)
  | r + 1 =>
      let result := engine i b.config
      let edge := edgeOf result
      if b.min_edge ≤ edge ∧ edge ≤ b.max_edge then
        (some result, 1)
      else
        let rest := runFrom edgeOf engine (b.adjust edge) (i + 1) r (some result)
        (rest.1, rest.2 + 1)

/-- Model of `AutoBalancer.run(max_iterations)`: run the loop from
iteration 0 with the local `result` unbound.  A `none` first component
models falling through to `return result` with `result` never assigned
(the `UnboundLocalError` raised when `max_iterations = 0`). -/
def AutoBalancer.run {ρ : Type} (edgeOf : ρ → ℚ) (engine : Nat → Config → ρ)
    (b : AutoBalancer) (max_iterations : Nat) : Option ρ × Nat :=
  runFrom edgeOf engine b 0 max_iterations none

/-- The balancer state after `k` non-converging loop iterations starting
from state `b` at iteration index `i`: each step adjusts by the statistic
the engine produces from the current config. -/
def iterBal {ρ : Type} (edgeOf : ρ → ℚ) (engine : Nat → Config → ρ) :
    AutoBalancer → Nat → Nat → AutoBalancer
  | b, _, 0 => b
  | b, i, k + 1 =>
      iterBal edgeOf engine (b.adjust (edgeOf (engine i b.config))) (i + 1) k

/-- The inclusive acceptance band `[0.03, 0.07]` of the controller. -/
def inBand (x : ℚ) : Prop := 3/100 ≤ x ∧ x ≤ 7/100

instance (x : ℚ) : Decidable (inBand x) := by
  unfold inBand; infer_instance

/-! Helper lemmas about `adjust`. -/

/-- The new actuator value produced by one `adjust` call, as the clamp of
the proportional update into `[1/2, 3]`. -/
lemma adjust_bust_eq (b : AutoBalancer) (edge : ℚ) :
    (b.adjust edge).config.bust_multiplier =
      max (1/2) (min 3
        (b.config.bust_multiplier + b.learning_rate * (b.target - edge))) := by
  show (let m0 := b.config.bust_multiplier + b.learning_rate * (b.target - edge)
        let m1 := if m0 < 1/2 then (1/2 : ℚ) else m0
        if m1 > 3 then (3 : ℚ) else m1) = _
  set m0 := b.config.bust_multiplier + b.learning_rate * (b.target - edge) with hm0
  rcases lt_or_le m0 (1/2) with h | h
  · have h3 : ¬ ((1:ℚ)/2 > 3) := by norm_num
    simp only [if_pos h, if_neg h3]
    rw [max_eq_left ((min_le_right _ _).trans h.le)]
  · rcases le_or_lt m0 3 with h2 | h2
    · have h3 : ¬ (m0 > 3) := not_lt.mpr h2
      simp only [if_neg (not_lt.mpr h), if_neg h3]
      rw [min_eq_right h2, max_eq_right h]
    · simp only [if_neg (not_lt.mpr h), if_pos h2]
      rw [min_eq_left (le_of_lt h2), max_eq_right (by norm_num)]

/-- One `adjust` call leaves the actuator within the clamp range. -/
lemma adjust_bust_mem (b : AutoBalancer) (edge : ℚ) :
    1/2 ≤ (b.adjust edge).config.bust_multiplier ∧
      (b.adjust edge).config.bust_multiplier ≤ 3 := by
  rw [adjust_bust_eq]
  constructor
  · exact le_max_left _ _
  · exact max_le (by norm_num) (min_le_left _ _)

/-- Fields of the balancer other than the config are untouched by
`adjust`, and all config fields other than the actuator are untouched. -/
lemma adjust_frame (b : AutoBalancer) (edge : ℚ) :
    (b.adjust edge).min_edge = b.min_edge ∧
    (b.adjust edge).max_edge = b.max_edge ∧
    (b.adjust edge).target = b.target ∧
    (b.adjust edge).learning_rate = b.learning_rate ∧
    (b.adjust edge).config.players = b.config.players ∧
    (b.adjust edge).config.ante = b.config.ante ∧
    (b.adjust edge).config.rounds = b.config.rounds ∧
    (b.adjust edge).config.target_edge = b.config.target_edge ∧
    (b.adjust edge).config.tube_initial = b.config.tube_initial :=
  ⟨rfl, rfl, rfl, rfl, rfl, rfl, rfl, rfl, rfl⟩

/-- Static config fields (everything except the actuator) agree between
two configs. -/
def sameStatic (c₁ c₂ : Config) : Prop :=
  c₁.players = c₂.players ∧ c₁.ante = c₂.ante ∧ c₁.rounds = c₂.rounds ∧
    c₁.target_edge = c₂.target_edge ∧ c₁.tube_initial = c₂.tube_initial

/-- One `adjust` call preserves the static config fields. -/
lemma adjust_sameStatic (b : AutoBalancer) (edge : ℚ) :
    sameStatic (b.adjust edge).config b.config :=
  ⟨rfl, rfl, rfl, rfl, rfl⟩

/-- Any sequence of `adjust` calls preserves the static config fields. -/
lemma foldl_adjust_sameStatic :
    ∀ (es : List ℚ) (b : AutoBalancer),
      sameStatic ((es.foldl AutoBalancer.adjust b).config) b.config := by
  intro es
  induction es with
  | nil => intro b; exact ⟨rfl, rfl, rfl, rfl, rfl⟩
  | cons e es ih =>
      intro b
      have h₁ := ih (b.adjust e)
      have h₂ := adjust_sameStatic b e
      simp only [List.foldl_cons]
      exact ⟨h₁.1.trans h₂.1, h₁.2.1.trans h₂.2.1, h₁.2.2.1.trans h₂.2.2.1,
        h₁.2.2.2.1.trans h₂.2.2.2.1, h₁.2.2.2.2.trans h₂.2.2.2.2⟩

/-- The loop state iterates preserve the static config fields. -/
lemma iterBal_sameStatic {ρ : Type} (edgeOf : ρ → ℚ) (engine : Nat → Config → ρ) :
    ∀ (k : Nat) (b : AutoBalancer) (i : Nat),
      sameStatic ((iterBal edgeOf engine b i k).config) b.config := by
  intro k
  induction k with
  | zero => intro b i; exact ⟨rfl, rfl, rfl, rfl, rfl⟩
  | succ k ih =>
      intro b i
      have h₁ := ih (b.adjust (edgeOf (engine i b.config))) (i + 1)
      have h₂ := adjust_sameStatic b (edgeOf (engine i b.config))
      exact ⟨h₁.1.trans h₂.1, h₁.2.1.trans h₂.2.1, h₁.2.2.1.trans h₂.2.2.1,
        h₁.2.2.2.1.trans h₂.2.2.2.1, h₁.2.2.2.2.trans h₂.2.2.2.2⟩

/-! Claim theorems about `adjust`. -/

/-- C1: for every sequence of `adjust` calls (each with an arbitrary
finite measured statistic), immediately after the last call returns the
config's `bust_multiplier` lies within `[0.5, 3.0]`, no matter how large
the gap is. -/
theorem clamp_invariant_adjust_sequence (b : AutoBalancer) (es : List ℚ)
    (h : es ≠ []) :
    1/2 ≤ (es.foldl AutoBalancer.adjust b).config.bust_multiplier ∧
      (es.foldl AutoBalancer.adjust b).config.bust_multiplier ≤ 3 := by
  induction es generalizing b with
  | nil => exact absurd rfl h
  | cons e es ih =>
      cases es with
      | nil => simpa using adjust_bust_mem b e
      | cons f fs =>
          simp only [List.foldl_cons]
          simpa using ih (b.adjust e) (by simp)

theorem clamp_invariant_adjust_sequence_witness :
    (([100, -50] : List ℚ) ≠ []) ∧
      (1/2 ≤ (([100, -50] : List ℚ).foldl AutoBalancer.adjust
          (AutoBalancer.init Config.mkDefault)).config.bust_multiplier ∧
        (([100, -50] : List ℚ).foldl AutoBalancer.adjust
          (AutoBalancer.init Config.mkDefault)).config.bust_multiplier ≤ 3) :=
  ⟨by simp,
    clamp_invariant_adjust_sequence (AutoBalancer.init Config.mkDefault)
      [100, -50] (by simp)⟩

/-- C2: `adjust m` on a freshly constructed balancer computes
`error = target_edge - m` and replaces the config, in place, by the same
config whose `bust_multiplier` is the clamp into `[0.5, 3.0]` of
`old actuator + 0.8 * error` (the state-passing model returns the updated
state in place of Python's `None`). -/
theorem adjust_functional_spec (c : Config) (m : ℚ) :
    ((AutoBalancer.init c).adjust m).config =
      { c with bust_multiplier :=
          (max (1/2) (min 3 (c.bust_multiplier + (4/5) * (c.target_edge - m)))) } :=
  congrArg (fun x => { c with bust_multiplier := x })
    (adjust_bust_eq (AutoBalancer.init c) m)

/-- C6 counterexample: a config state whose actuator starts below the
clamp range (0.1) is changed by `adjust` at the target statistic — the
zero-error update is followed by the unconditional clamp, which moves the
actuator to 0.5. -/
theorem adjust_at_target_moves_low_actuator :
    ((AutoBalancer.init { Config.mkDefault with bust_multiplier := 1/10 }).adjust
        ({ Config.mkDefault with bust_multiplier := 1/10 } : Config).target_edge
      ).config.bust_multiplier ≠
      ({ Config.mkDefault with bust_multiplier := 1/10 } : Config).bust_multiplier := by
  rw [adjust_bust_eq]
  norm_num [AutoBalancer.init, Config.mkDefault, max_def, min_def]

/-- C6 amended: for every config state whose actuator already lies within
the clamp range `[0.5, 3.0]` (in particular any state produced by a
previous `adjust`), calling `adjust` with the measured statistic equal to
the target statistic leaves the actuator unchanged. -/
theorem adjust_at_target_fixes_inRange_actuator (b : AutoBalancer)
    (h1 : 1/2 ≤ b.config.bust_multiplier) (h2 : b.config.bust_multiplier ≤ 3) :
    (b.adjust b.target).config.bust_multiplier = b.config.bust_multiplier := by
  rw [adjust_bust_eq, sub_self, mul_zero, add_zero, min_eq_right h2,
    max_eq_right h1]

theorem adjust_at_target_fixes_inRange_actuator_witness :
    1/2 ≤ (AutoBalancer.init Config.mkDefault).config.bust_multiplier ∧
      (AutoBalancer.init Config.mkDefault).config.bust_multiplier ≤ 3 ∧
      ((AutoBalancer.init Config.mkDefault).adjust
          (AutoBalancer.init Config.mkDefault).target).config.bust_multiplier =
        (AutoBalancer.init Config.mkDefault).config.bust_multiplier :=
  ⟨by norm_num [AutoBalancer.init, Config.mkDefault],
    by norm_num [AutoBalancer.init, Config.mkDefault],
    adjust_at_target_fixes_inRange_actuator (AutoBalancer.init Config.mkDefault)
      (by norm_num [AutoBalancer.init, Config.mkDefault])
      (by norm_num [AutoBalancer.init, Config.mkDefault])⟩

/-- C7: the balancer writes only the actuator: across any sequence of
`adjust` calls, and along the loop-state iterates of any `run` invocation,
the config's `players`, `ante`, `rounds`, `target_edge` and `tube_initial`
fields remain unchanged. -/
theorem balancer_mutates_only_actuator :
    (∀ (b : AutoBalancer) (es : List ℚ),
      sameStatic ((es.foldl AutoBalancer.adjust b).config) b.config) ∧
    (∀ (ρ : Type) (edgeOf : ρ → ℚ) (engine : Nat → Config → ρ)
        (b : AutoBalancer) (i k : Nat),
      sameStatic ((iterBal edgeOf engine b i k).config) b.config) :=
  ⟨fun b es => foldl_adjust_sameStatic es b,
    fun _ edgeOf engine b i k => iterBal_sameStatic edgeOf engine k b i⟩

/-- C10: the target statistic is snapshotted at construction: overwriting
`config.target_edge` after construction neither changes the snapshot nor
the actuator value `adjust` computes. -/
theorem target_snapshot_at_construction (c : Config) (t' m : ℚ) :
    ({ AutoBalancer.init c with
        config := { (AutoBalancer.init c).config with target_edge := t' } }).target
        = c.target_edge ∧
    (({ AutoBalancer.init c with
        config := { (AutoBalancer.init c).config with target_edge := t' } }).adjust
          m).config.bust_multiplier =
      ((AutoBalancer.init c).adjust m).config.bust_multiplier :=
  ⟨rfl, rfl⟩

/-! Helper lemmas about the `run` loop. -/

/-- The band constants of the balancer are untouched by `adjust`. -/
lemma adjust_band_frame (b : AutoBalancer) (edge : ℚ) :
    (b.adjust edge).min_edge = b.min_edge ∧ (b.adjust edge).max_edge = b.max_edge :=
  ⟨rfl, rfl⟩

/-- One loop step when the band test passes: stop with this record. -/
lemma runFrom_step_band {ρ : Type} (edgeOf : ρ → ℚ) (engine : Nat → Config → ρ)
    (b : AutoBalancer) (i r : Nat) (last : Option ρ)
    (h : b.min_edge ≤ edgeOf (engine i b.config) ∧
      edgeOf (engine i b.config) ≤ b.max_edge) :
    runFrom edgeOf engine b i (r + 1) last = (some (engine i b.config), 1) := by
  conv_lhs => rw [runFrom]
  simp only [if_pos h]

/-- One loop step when the band test fails: adjust and continue with the
record stored as the last result. -/
lemma runFrom_step_not_band {ρ : Type} (edgeOf : ρ → ℚ) (engine : Nat → Config → ρ)
    (b : AutoBalancer) (i r : Nat) (last : Option ρ)
    (h : ¬ (b.min_edge ≤ edgeOf (engine i b.config) ∧
      edgeOf (engine i b.config) ≤ b.max_edge)) :
    runFrom edgeOf engine b i (r + 1) last =
      ((runFrom edgeOf engine (b.adjust (edgeOf (engine i b.config))) (i + 1) r
          (some (engine i b.config))).1,
        (runFrom edgeOf engine (b.adjust (edgeOf (engine i b.config))) (i + 1) r
          (some (engine i b.config))).2 + 1) := by
  conv_lhs => rw [runFrom]
  simp only [if_neg h]

/-- When no produced statistic ever satisfies the band test, the loop
runs all its iterations and ends holding the record of the last one. -/
lemma runFrom_never_band {ρ : Type} (edgeOf : ρ → ℚ) (engine : Nat → Config → ρ)
    (lo hi : ℚ)
    (H : ∀ (i : Nat) (c : Config),
      ¬ (lo ≤ edgeOf (engine i c) ∧ edgeOf (engine i c) ≤ hi)) :
    ∀ (r : Nat) (b : AutoBalancer) (i : Nat) (last : Option ρ),
      b.min_edge = lo → b.max_edge = hi →
      runFrom edgeOf engine b i (r + 1) last =
        (some (engine (i + r) ((iterBal edgeOf engine b i r).config)), r + 1) := by
  intro r
  induction r with
  | zero =>
      intro b i last hlo hhi
      have hne := H i b.config
      rw [← hlo, ← hhi] at hne
      simp [runFrom, iterBal, hne]
  | succ r ih =>
      intro b i last hlo hhi
      have hne := H i b.config
      rw [← hlo, ← hhi] at hne
      have hrec := ih (b.adjust (edgeOf (engine i b.config))) (i + 1)
        (some (engine i b.config)) hlo hhi
      have hidx : i + 1 + r = i + (r + 1) := by omega
      rw [hidx] at hrec
      rw [runFrom_step_not_band edgeOf engine b i (r + 1) last hne, hrec]
      simp only [iterBal]

/-- Whenever at least one iteration runs, the loop ends holding a record. -/
lemma runFrom_succ_isSome {ρ : Type} (edgeOf : ρ → ℚ) (engine : Nat → Config → ρ) :
    ∀ (r : Nat) (b : AutoBalancer) (i : Nat) (last : Option ρ),
      ((runFrom edgeOf engine b i (r + 1) last).1).isSome := by
  intro r
  induction r with
  | zero =>
      intro b i last
      simp only [runFrom]
      split
      · rfl
      · simp [runFrom]
  | succ r ih =>
      intro b i last
      simp only [runFrom]
      split
      · rfl
      · exact ih (b.adjust (edgeOf (engine i b.config))) (i + 1)
          (some (engine i b.config))

/-- The loop performs at most `remaining` simulations. -/
lemma runFrom_count_le {ρ : Type} (edgeOf : ρ → ℚ) (engine : Nat → Config → ρ) :
    ∀ (r : Nat) (b : AutoBalancer) (i : Nat) (last : Option ρ),
      (runFrom edgeOf engine b i r last).2 ≤ r := by
  intro r
  induction r with
  | zero => intro b i last; simp [runFrom]
  | succ r ih =>
      intro b i last
      simp only [runFrom]
      split
      · simp
      · exact Nat.succ_le_succ (ih _ _ _)

/-- Two engines producing the same statistic observations drive the loop
through identical iterations: the same stored balancer states, the same
simulation counts, and final records carrying the same statistic. -/
lemma runFrom_observational_determinism {ρ₁ ρ₂ : Type}
    (edgeOf₁ : ρ₁ → ℚ) (edgeOf₂ : ρ₂ → ℚ)
    (e₁ : Nat → Config → ρ₁) (e₂ : Nat → Config → ρ₂)
    (H : ∀ (i : Nat) (c : Config), edgeOf₁ (e₁ i c) = edgeOf₂ (e₂ i c)) :
    ∀ (r : Nat) (b : AutoBalancer) (i : Nat) (l₁ : Option ρ₁) (l₂ : Option ρ₂),
      Option.map edgeOf₁ l₁ = Option.map edgeOf₂ l₂ →
      Option.map edgeOf₁ (runFrom edgeOf₁ e₁ b i r l₁).1 =
          Option.map edgeOf₂ (runFrom edgeOf₂ e₂ b i r l₂).1 ∧
        (runFrom edgeOf₁ e₁ b i r l₁).2 = (runFrom edgeOf₂ e₂ b i r l₂).2 := by
  intro r
  induction r with
  | zero => intro b i l₁ l₂ hl; exact ⟨hl, rfl⟩
  | succ r ih =>
      intro b i l₁ l₂ hl
      have hedge := H i b.config
      by_cases hc : b.min_edge ≤ edgeOf₁ (e₁ i b.config) ∧
          edgeOf₁ (e₁ i b.config) ≤ b.max_edge
      · have hc₂ : b.min_edge ≤ edgeOf₂ (e₂ i b.config) ∧
            edgeOf₂ (e₂ i b.config) ≤ b.max_edge := by rw [← hedge]; exact hc
        rw [runFrom_step_band edgeOf₁ e₁ b i r l₁ hc,
          runFrom_step_band edgeOf₂ e₂ b i r l₂ hc₂]
        exact ⟨by simp [hedge], rfl⟩
      · have hc₂ : ¬ (b.min_edge ≤ edgeOf₂ (e₂ i b.config) ∧
            edgeOf₂ (e₂ i b.config) ≤ b.max_edge) := by rw [← hedge]; exact hc
        have hrec := ih (b.adjust (edgeOf₁ (e₁ i b.config))) (i + 1)
          (some (e₁ i b.config)) (some (e₂ i b.config))
          (by simp [hedge])
        rw [runFrom_step_not_band edgeOf₁ e₁ b i r l₁ hc,
          runFrom_step_not_band edgeOf₂ e₂ b i r l₂ hc₂, ← hedge]
        exact ⟨hrec.1, by rw [hrec.2]⟩

/-- Two engines producing the same statistic observations drive the same
sequence of balancer states. -/
lemma iterBal_observational_determinism {ρ₁ ρ₂ : Type}
    (edgeOf₁ : ρ₁ → ℚ) (edgeOf₂ : ρ₂ → ℚ)
    (e₁ : Nat → Config → ρ₁) (e₂ : Nat → Config → ρ₂)
    (H : ∀ (i : Nat) (c : Config), edgeOf₁ (e₁ i c) = edgeOf₂ (e₂ i c)) :
    ∀ (k : Nat) (b : AutoBalancer) (i : Nat),
      iterBal edgeOf₁ e₁ b i k = iterBal edgeOf₂ e₂ b i k := by
  intro k
  induction k with
  | zero => intro b i; rfl
  | succ k ih =>
      intro b i
      simp only [iterBal, H i b.config]
      exact ih _ _

/-! Claim theorems about `run`. -/

/-- A deterministic stub engine reporting a constant statistic. -/
def constEngine (q : ℚ) : Nat → Config → SimResult := fun _ _ => ⟨q, 0⟩

/-- C3: when the statistic never enters the band, `run` with at least one
iteration performs exactly `max_iterations` simulations and returns the
result record of the final iteration as a normal value. -/
theorem run_exhaustion_returns_last {ρ : Type} (edgeOf : ρ → ℚ)
    (engine : Nat → Config → ρ) (b : AutoBalancer) (n : Nat) (hn : 1 ≤ n)
    (H : ∀ (i : Nat) (c : Config),
      ¬ (b.min_edge ≤ edgeOf (engine i c) ∧ edgeOf (engine i c) ≤ b.max_edge)) :
    AutoBalancer.run edgeOf engine b n =
      (some (engine (n - 1) ((iterBal edgeOf engine b 0 (n - 1)).config)), n) := by
  obtain ⟨m, rfl⟩ : ∃ m, n = m + 1 := ⟨n - 1, by omega⟩
  have h := runFrom_never_band edgeOf engine b.min_edge b.max_edge H m b 0 none
    rfl rfl
  simpa [AutoBalancer.run] using h

theorem run_exhaustion_returns_last_witness :
    (1 ≤ 3) ∧
      AutoBalancer.run SimResult.house_edge (constEngine (1/5))
          (AutoBalancer.init Config.mkDefault) 3 =
        (some (constEngine (1/5) 2
          ((iterBal SimResult.house_edge (constEngine (1/5))
            (AutoBalancer.init Config.mkDefault) 0 2).config)), 3) :=
  ⟨by norm_num,
    run_exhaustion_returns_last SimResult.house_edge (constEngine (1/5))
      (AutoBalancer.init Config.mkDefault) 3 (by norm_num)
      (by intro i c; norm_num [constEngine, AutoBalancer.init])⟩

/-- C4: the band comparison is inclusive on both ends: if the first
simulated statistic satisfies `min_edge ≤ x ≤ max_edge`, `run` stops at
once, performing one simulation and no adjustment, and returns that
iteration's record. -/
theorem run_stops_on_inclusive_band {ρ : Type} (edgeOf : ρ → ℚ)
    (engine : Nat → Config → ρ) (b : AutoBalancer) (n : Nat) (hn : 1 ≤ n)
    (h : b.min_edge ≤ edgeOf (engine 0 b.config) ∧
      edgeOf (engine 0 b.config) ≤ b.max_edge) :
    AutoBalancer.run edgeOf engine b n = (some (engine 0 b.config), 1) := by
  obtain ⟨m, rfl⟩ : ∃ m, n = m + 1 := ⟨n - 1, by omega⟩
  exact runFrom_step_band edgeOf engine b 0 m none h

theorem run_stops_on_inclusive_band_witness :
    ((1 ≤ 8) ∧
      AutoBalancer.run SimResult.house_edge (constEngine (3/100))
          (AutoBalancer.init Config.mkDefault) 8 = (some ⟨3/100, 0⟩, 1)) ∧
      AutoBalancer.run SimResult.house_edge (constEngine (7/100))
          (AutoBalancer.init Config.mkDefault) 8 = (some ⟨7/100, 0⟩, 1) :=
  ⟨⟨by norm_num,
      run_stops_on_inclusive_band SimResult.house_edge (constEngine (3/100))
        (AutoBalancer.init Config.mkDefault) 8 (by norm_num)
        (by norm_num [constEngine, AutoBalancer.init])⟩,
    run_stops_on_inclusive_band SimResult.house_edge (constEngine (7/100))
      (AutoBalancer.init Config.mkDefault) 8 (by norm_num)
      (by norm_num [constEngine, AutoBalancer.init])⟩

/-- C8: the controller is deterministic in its observations: two engines
fed to equal initial balancer states that produce the same statistic at
every iteration yield the same balancer-state trajectory, simulation
count, stop decision, and returned statistic. -/
theorem controller_observational_determinism {ρ₁ ρ₂ : Type}
    (edgeOf₁ : ρ₁ → ℚ) (edgeOf₂ : ρ₂ → ℚ)
    (e₁ : Nat → Config → ρ₁) (e₂ : Nat → Config → ρ₂)
    (H : ∀ (i : Nat) (c : Config), edgeOf₁ (e₁ i c) = edgeOf₂ (e₂ i c))
    (b : AutoBalancer) (n : Nat) :
    (∀ k i, iterBal edgeOf₁ e₁ b i k = iterBal edgeOf₂ e₂ b i k) ∧
    Option.map edgeOf₁ (AutoBalancer.run edgeOf₁ e₁ b n).1 =
      Option.map edgeOf₂ (AutoBalancer.run edgeOf₂ e₂ b n).1 ∧
    (AutoBalancer.run edgeOf₁ e₁ b n).2 = (AutoBalancer.run edgeOf₂ e₂ b n).2 ∧
    ((AutoBalancer.run edgeOf₁ e₁ b n).1).isSome =
      ((AutoBalancer.run edgeOf₂ e₂ b n).1).isSome := by
  have h := runFrom_observational_determinism edgeOf₁ edgeOf₂ e₁ e₂ H n b 0
    none none rfl
  refine ⟨fun k i => iterBal_observational_determinism edgeOf₁ edgeOf₂ e₁ e₂ H k b i,
    h.1, h.2, ?_⟩
  have hmap := congrArg Option.isSome h.1
  simpa using hmap

/-- Two stub engines reporting the same statistic but different payloads. -/
def engineA : Nat → Config → SimResult := fun _ _ => ⟨1/5, 1⟩

/-- Second stub engine for the determinism witness. -/
def engineB : Nat → Config → SimResult := fun _ _ => ⟨1/5, 2⟩

theorem controller_observational_determinism_witness :
    (∀ (i : Nat) (c : Config),
      SimResult.house_edge (engineA i c) = SimResult.house_edge (engineB i c)) ∧
    ((∀ k i, iterBal SimResult.house_edge engineA (AutoBalancer.init Config.mkDefault) i k =
        iterBal SimResult.house_edge engineB (AutoBalancer.init Config.mkDefault) i k) ∧
      Option.map SimResult.house_edge
          (AutoBalancer.run SimResult.house_edge engineA
            (AutoBalancer.init Config.mkDefault) 2).1 =
        Option.map SimResult.house_edge
          (AutoBalancer.run SimResult.house_edge engineB
            (AutoBalancer.init Config.mkDefault) 2).1 ∧
      (AutoBalancer.run SimResult.house_edge engineA
          (AutoBalancer.init Config.mkDefault) 2).2 =
        (AutoBalancer.run SimResult.house_edge engineB
          (AutoBalancer.init Config.mkDefault) 2).2 ∧
      ((AutoBalancer.run SimResult.house_edge engineA
          (AutoBalancer.init Config.mkDefault) 2).1).isSome =
        ((AutoBalancer.run SimResult.house_edge engineB
          (AutoBalancer.init Config.mkDefault) 2).1).isSome) :=
  ⟨fun _ _ => rfl,
    controller_observational_determinism SimResult.house_edge SimResult.house_edge
      engineA engineB (fun _ _ => rfl) (AutoBalancer.init Config.mkDefault) 2⟩

/-- C9: `run 0` skips the loop body entirely — zero simulations — and
reaches `return result` with the local unbound, so it fails (modelled as
`none`) instead of returning a record; a record is returned exactly when
`max_iterations ≥ 1`. -/
theorem run_zero_yields_no_record {ρ : Type} (edgeOf : ρ → ℚ)
    (engine : Nat → Config → ρ) (b : AutoBalancer) :
    AutoBalancer.run edgeOf engine b 0 = (none, 0) ∧
    ∀ n : Nat, 1 ≤ n → ((AutoBalancer.run edgeOf engine b n).1).isSome := by
  refine ⟨rfl, fun n hn => ?_⟩
  obtain ⟨m, rfl⟩ : ∃ m, n = m + 1 := ⟨n - 1, by omega⟩
  exact runFrom_succ_isSome edgeOf engine m b 0 none

theorem run_zero_yields_no_record_witness :
    (AutoBalancer.run SimResult.house_edge (constEngine (1/5))
        (AutoBalancer.init Config.mkDefault) 0 = (none, 0) ∧
      ∀ n : Nat, 1 ≤ n →
        ((AutoBalancer.run SimResult.house_edge (constEngine (1/5))
          (AutoBalancer.init Config.mkDefault) n).1).isSome) ∧
    (1 ≤ 1) ∧
    ((AutoBalancer.run SimResult.house_edge (constEngine (1/5))
        (AutoBalancer.init Config.mkDefault) 1).1).isSome :=
  ⟨run_zero_yields_no_record SimResult.house_edge (constEngine (1/5))
      (AutoBalancer.init Config.mkDefault),
    by norm_num,
    (run_zero_yields_no_record SimResult.house_edge (constEngine (1/5))
      (AutoBalancer.init Config.mkDefault)).2 1 (by norm_num)⟩

/-! Claim C5: the convergence property for strictly decreasing engines. -/

/-- Deterministic stub engine induced by a statistic map over the
actuator: each simulation reports `f` of the current `bust_multiplier`. -/
def engineOf (f : ℚ → ℚ) : Nat → Config → SimResult :=
  fun _ c => ⟨f c.bust_multiplier, 0⟩

/-- Formalisation following the spec's words (testable property
"convergence monotonicity"): for a deterministic stub engine whose
statistic is a strictly monotonic decreasing function of the actuator, if
some actuator value within the clamp range `[0.5, 3.0]` produces a
statistic inside the band, then `run` terminates with convergence — a
returned record whose statistic lies inside the band — within the given
iteration bound. -/
def specC5Convergence (f : ℚ → ℚ) (b : AutoBalancer) (n : Nat) : Prop :=
  (∀ x y : ℚ, x < y → f y < f x) →
  (∃ a : ℚ, 1/2 ≤ a ∧ a ≤ 3 ∧ inBand (f a)) →
  ∃ r : SimResult,
    (AutoBalancer.run SimResult.house_edge (engineOf f) b n).1 = some r ∧
      inBand r.house_edge

/-- A strictly decreasing statistic map that attains the band on
`[1.5, 3.5]`, within the clamp range. -/
def fC5 : ℚ → ℚ := fun a => 1/10 - a/50

/-- Below actuator 1 the statistic of `fC5` sits strictly above the band. -/
lemma fC5_gt_band (a : ℚ) (ha : a ≤ 1) : 7/100 < fC5 a := by
  simp only [fC5]
  linarith

/-- Against `fC5`, adjusting from an actuator at most 1 moves it down (the
controller pushes the wrong way), keeping it at most 1. -/
lemma adjustC5_le_one (b : AutoBalancer) (ht : b.target = 1/20)
    (hl : b.learning_rate = 4/5) (ha : b.config.bust_multiplier ≤ 1) :
    (b.adjust (fC5 b.config.bust_multiplier)).config.bust_multiplier ≤ 1 := by
  rw [adjust_bust_eq, ht, hl]
  have hm : b.config.bust_multiplier +
      4/5 * (1/20 - fC5 b.config.bust_multiplier) ≤ 1 := by
    simp only [fC5]
    linarith
  exact max_le (by norm_num) ((min_le_right _ _).trans hm)

/-- Starting at or below actuator 1, the loop against `fC5` never sees a
statistic in the band, and ends holding a record whose statistic is `fC5`
of some actuator value at most 1. -/
lemma runC5_stays_high :
    ∀ (r : Nat) (b : AutoBalancer) (i : Nat) (last : Option SimResult),
      b.target = 1/20 → b.learning_rate = 4/5 →
      b.min_edge = 3/100 → b.max_edge = 7/100 →
      b.config.bust_multiplier ≤ 1 →
      ∃ a : ℚ, a ≤ 1 ∧
        (runFrom SimResult.house_edge (engineOf fC5) b i (r + 1) last).1 =
          some ⟨fC5 a, 0⟩ := by
  intro r
  induction r with
  | zero =>
      intro b i last ht hl hmin hmax ha
      have hgt := fC5_gt_band b.config.bust_multiplier ha
      have hne : ¬ (b.min_edge ≤
            SimResult.house_edge (engineOf fC5 i b.config) ∧
          SimResult.house_edge (engineOf fC5 i b.config) ≤ b.max_edge) := by
        rw [hmin, hmax]
        simp only [engineOf]
        intro hcontra
        linarith [hcontra.2]
      rw [runFrom_step_not_band _ _ _ _ _ _ hne]
      refine ⟨b.config.bust_multiplier, ha, ?_⟩
      simp [runFrom, engineOf]
  | succ r ih =>
      intro b i last ht hl hmin hmax ha
      have hgt := fC5_gt_band b.config.bust_multiplier ha
      have hne : ¬ (b.min_edge ≤
            SimResult.house_edge (engineOf fC5 i b.config) ∧
          SimResult.house_edge (engineOf fC5 i b.config) ≤ b.max_edge) := by
        rw [hmin, hmax]
        simp only [engineOf]
        intro hcontra
        linarith [hcontra.2]
      rw [runFrom_step_not_band _ _ _ _ _ _ hne]
      have ha2 : (b.adjust (SimResult.house_edge
          (engineOf fC5 i b.config))).config.bust_multiplier ≤ 1 := by
        simpa [engineOf] using adjustC5_le_one b ht hl ha
      exact ih (b.adjust (SimResult.house_edge (engineOf fC5 i b.config)))
        (i + 1) (some (engineOf fC5 i b.config)) ht hl hmin hmax ha2

/-- C5 counterexample: the stub engine `fC5` is strictly monotonic
decreasing in the actuator and attains the band at an in-range actuator
(e.g. 3), yet `run` from the default config with the default budget of 8
iterations does not converge: the sign convention of `adjust` moves the
actuator away from the band for decreasing engines. -/
theorem convergence_fails_for_decreasing_engine :
    ¬ specC5Convergence fC5 (AutoBalancer.init Config.mkDefault) 8 := by
  intro h
  have hmono : ∀ x y : ℚ, x < y → fC5 y < fC5 x := by
    intro x y hxy
    simp only [fC5]
    linarith
  have hreach : ∃ a : ℚ, 1/2 ≤ a ∧ a ≤ 3 ∧ inBand (fC5 a) := by
    refine ⟨3, by norm_num, le_refl 3, ?_⟩
    norm_num [inBand, fC5]
  obtain ⟨r, hr, hband⟩ := h hmono hreach
  obtain ⟨a, ha, heq⟩ := runC5_stays_high 7 (AutoBalancer.init Config.mkDefault)
    0 none (by norm_num [AutoBalancer.init, Config.mkDefault]) rfl rfl rfl
    (by norm_num [AutoBalancer.init, Config.mkDefault])
  simp only [AutoBalancer.run] at hr
  have h8 : (8 : Nat) = 7 + 1 := rfl
  rw [h8] at hr
  have hsome : some r = some (⟨fC5 a, 0⟩ : SimResult) := hr.symm.trans heq
  have hrr : r = ⟨fC5 a, 0⟩ := Option.some.inj hsome
  rw [hrr] at hband
  simp only [inBand, fC5] at hband
  linarith [hband.2, ha]

/-- C5 amended: for a deterministic stub engine whose statistic is a
strictly monotonic decreasing function of the actuator, even when some
actuator value within the clamp range produces a statistic inside the
band, `run` is only guaranteed to terminate within `maxIterations`
simulations and return a best-effort result record — the returned
statistic need not lie inside the band. -/
theorem run_terminates_best_effort (f : ℚ → ℚ) (b : AutoBalancer) (n : Nat)
    (hn : 1 ≤ n) (hmono : ∀ x y : ℚ, x < y → f y < f x)
    (hreach : ∃ a : ℚ, 1/2 ≤ a ∧ a ≤ 3 ∧ inBand (f a)) :
    ((AutoBalancer.run SimResult.house_edge (engineOf f) b n).1).isSome ∧
      (AutoBalancer.run SimResult.house_edge (engineOf f) b n).2 ≤ n := by
  obtain ⟨m, rfl⟩ : ∃ m, n = m + 1 := ⟨n - 1, by omega⟩
  exact ⟨runFrom_succ_isSome SimResult.house_edge (engineOf f) m b 0 none,
    runFrom_count_le SimResult.house_edge (engineOf f) (m + 1) b 0 none⟩

theorem run_terminates_best_effort_witness :
    (1 ≤ 8) ∧ (∀ x y : ℚ, x < y → fC5 y < fC5 x) ∧
      (∃ a : ℚ, 1/2 ≤ a ∧ a ≤ 3 ∧ inBand (fC5 a)) ∧
      (((AutoBalancer.run SimResult.house_edge (engineOf fC5)
          (AutoBalancer.init Config.mkDefault) 8).1).isSome ∧
        (AutoBalancer.run SimResult.house_edge (engineOf fC5)
          (AutoBalancer.init Config.mkDefault) 8).2 ≤ 8) :=
  ⟨by norm_num,
    fun x y hxy => by simp only [fC5]; linarith,
    ⟨2, by norm_num, by norm_num, by norm_num [inBand, fC5]⟩,
    run_terminates_best_effort fC5 (AutoBalancer.init Config.mkDefault) 8
      (by norm_num) (fun x y hxy => by simp only [fC5]; linarith)
      ⟨2, by norm_num, by norm_num, by norm_num [inBand, fC5]⟩⟩
